import Mathlib

/-!
Verification development for the ApiDeskReview backend.

This file shallowly embeds the parts of the repository that the verified
properties speak about:

* the Qdrant filter construction of `app/services/vector_store.py`
  (`VectorStoreService`, the "default" profile) and
  `app/services/baai_vector_store.py` (`BAAIVectorStoreService`, the "BAAI"
  profile), together with the boundary semantics of Qdrant `must`/`should`
  filters (conjunction / at-least-one disjunction over payload field
  conditions);
* the flat chunk payload written by the default insert path
  (`app/services/document_processor.py` together with
  `EmbeddingService.process_document`);
* the MD5-based point-id computation `_generate_point_id` shared by both
  vector-store services;
* the text chunker `split_into_paragraphs` of
  `app/services/embedding_service.py` / `baai_embedding_service.py`;
* the audit-evaluation pipeline of `app/services/ai_service.py` and
  `app/services/ai_process_service.py`;
* the relational audit query `AuditService.get_audit_documents` of
  `app/services/audit_service.py`.

Python strings are modelled as `List Char` (for the chunker, where character
arithmetic matters) or Lean `String`s; Python heterogeneous payload values as
the inductive `PVal`; exceptions as `Except`; external nondeterminism (the
vector database, the relational database, the LLM) as explicit oracle
parameters.
-/

set_option autoImplicit false

/-! ### Qdrant payloads and filters

A Qdrant point payload is a flat JSON object; we model it as an association
list from field keys to values.  `FieldCondition key (MatchValue value)`
matches a point whose payload field at `key` equals `value`.  A `Filter` has
`must` conditions (all have to hold) and `should` conditions (at least one has
to hold, when any are given) — the boundary semantics stated in spec §4.8/§6
for the third-party vector database.
-/

/-- A payload value: Qdrant payload fields in this repository hold integers,
strings or booleans. -/
inductive PVal where
  | int (n : Int)
  | str (s : String)
  | bool (b : Bool)
deriving DecidableEq, Repr

/-- A point payload: a flat association list of field keys and values. -/
abbrev QPayload : Type := List (String × PVal)

/-- Payload field lookup (first binding wins, as in a JSON object). -/
def plookup (p : QPayload) (key : String) : Option PVal :=
  match p with
  | [] => none
  | (k, v) :: rest => if k = key then some v else plookup rest key

/-- `FieldCondition(key=…, match=MatchValue(value=…))`. -/
structure FieldCondition where
  key : String
  value : PVal
deriving DecidableEq, Repr

/-- A Qdrant `Filter(must=…, should=…)`; absent clauses are empty lists. -/
structure QFilter where
  must : List FieldCondition
  should : List FieldCondition
deriving Repr

/-- One field condition holds of a payload iff the field is present and equal. -/
def condHolds (p : QPayload) (c : FieldCondition) : Bool :=
  plookup p c.key = some c.value

/-- Qdrant filter semantics: every `must` condition holds, and, when `should`
conditions are present, at least one of them holds. -/
def filterHolds (p : QPayload) (f : QFilter) : Bool :=
  f.must.all (condHolds p) && (f.should.isEmpty || f.should.any (condHolds p))

/-! ### The id filters built by the two `search_by_document_ids` -/

/-- `vector_store.py` lines 212–225: the default profile's id filter — one
condition per document id on `"metadata.DocumentId"`, combined as `should`
(OR). -/
def vs_document_ids_filter (documentIds : List Int) : QFilter :=
  { must := []
    should := documentIds.map fun docId =>
      { key := "metadata.DocumentId", value := PVal.int docId } }

/-- `baai_vector_store.py` lines 210–217: the BAAI profile's id filter — one
condition per document id on `"DocumentId"`, combined as `must` (AND). -/
def baai_document_ids_filter (documentIds : List Int) : QFilter :=
  { must := documentIds.map fun docId =>
      { key := "DocumentId", value := PVal.int docId }
    should := [] }

/-- `vector_store.py` lines 117–124: the default profile's
`document_exists` filter — a single `must` condition on the *nested* path
`"metadata.DocumentId"`. -/
def vs_document_exists_filter (documentId : Int) : QFilter :=
  { must := [{ key := "metadata.DocumentId", value := PVal.int documentId }]
    should := [] }

/-! ### Points and the search operations -/

/-- A stored point as returned from a Qdrant search: id, relevance score and
payload.  Scores are modelled as integers: no verified property reasons about
score arithmetic, only about presence/ordering of hits. -/
structure QPoint where
  id : Nat
  score : Int
  payload : QPayload
deriving DecidableEq

/-- The hits the vector database returns for a filtered search over a
collection `db` (assumed relevance-ordered): the points matching the filter,
truncated to `limit`. -/
def qdrantSearch (db : List QPoint) (f : QFilter) (limit : Nat) : List QPoint :=
  (db.filter fun pt => filterHolds pt.payload f).take limit

/-- Result rows of the BAAI search operations (`baai_vector_store.py` lines
228–241): each field is copied from the point payload; a missing key raises
`KeyError` in Python, modelled by `Option` (a `none` aborts the whole result
processing, like the exception). -/
structure BaaiResult where
  score : Int
  document_id : PVal
  file_name : PVal
  document_type : PVal
  content : PVal
  chunk_index : PVal
  total_chunks : PVal
  created_at : PVal
  total_reading : PVal
deriving DecidableEq

/-- `baai_vector_store.py` lines 229–241: format one hit; `none` models a
`KeyError` on a missing payload field. -/
def baaiFormatResult (pt : QPoint) : Option BaaiResult := do
  let d ← plookup pt.payload "DocumentId"
  let f ← plookup pt.payload "FileName"
  let t ← plookup pt.payload "DocumentType"
  let c ← plookup pt.payload "Content"
  let ci ← plookup pt.payload "ChunkIndex"
  let tc ← plookup pt.payload "TotalChunks"
  let ca ← plookup pt.payload "CreatedAt"
  let tr ← plookup pt.payload "TotalReading"
  pure { score := pt.score, document_id := d, file_name := f,
         document_type := t, content := c, chunk_index := ci,
         total_chunks := tc, created_at := ca, total_reading := tr }

/-- Result rows of the default-profile searches (`vector_store.py` lines
232–239): `payload.get('chunk_text', '')` never raises. -/
structure VsResult where
  id : Nat
  score : Int
  text : PVal
  metadata : QPayload
deriving DecidableEq

/-- `vector_store.py` lines 233–239. -/
def vsFormatResult (pt : QPoint) : VsResult :=
  { id := pt.id, score := pt.score
    text := (plookup pt.payload "chunk_text").getD (PVal.str "")
    metadata := pt.payload }

/-- `vector_store.py` `search_by_document_ids` (lines 190–246): generate the
query embedding, search with the OR filter over ids, format.  The broad
`except` re-raises, so any failure of the embedding generation (`embed`) or
of the client call (`client`) propagates as `Except.error`. -/
def vs_search_by_document_ids (embed : Except String Unit)
    (client : Except String (List QPoint)) (documentIds : List Int)
    (limit : Nat) : Except String (List VsResult) := do
  let _ ← embed
  let db ← client
  pure ((qdrantSearch db (vs_document_ids_filter documentIds) limit).map vsFormatResult)

/-- `vector_store.py` `search_similar` (lines 248–294): unrestricted search;
the thresholded, ranked hit list is the client's response; failures re-raise. -/
def vs_search_similar (embed : Except String Unit)
    (client : Except String (List QPoint)) (limit : Nat) :
    Except String (List VsResult) := do
  let _ ← embed
  let hits ← client
  pure ((hits.take limit).map vsFormatResult)

/-- `vector_store.py` `document_exists` (lines 98–140): search with the nested
`metadata.DocumentId` filter, `limit=1`; `True` iff any hit; any exception is
caught and yields `False`. -/
def vs_document_exists (client : Except String (List QPoint))
    (documentId : Int) : Bool :=
  match client with
  | .error _ => false
  | .ok db => decide (0 < (qdrantSearch db (vs_document_exists_filter documentId) 1).length)

/-- `baai_vector_store.py` `search_by_document_ids` (lines 188–248): embed the
query, search with the AND filter over ids, format every hit; the broad
`except` catches *everything* and returns `[]`. -/
def baai_search_by_document_ids (embed : Except String Unit)
    (client : Except String (List QPoint)) (documentIds : List Int)
    (limit : Nat) : List BaaiResult :=
  match embed with
  | .error _ => []
  | .ok _ =>
    match client with
    | .error _ => []
    | .ok db =>
      match (qdrantSearch db (baai_document_ids_filter documentIds) limit).mapM baaiFormatResult with
      | some results => results
      | none => []

/-- `baai_vector_store.py` `search_similar` (lines 250–300): unrestricted
search; the broad `except` returns `[]` on any failure. -/
def baai_search_similar (embed : Except String Unit)
    (client : Except String (List QPoint)) (limit : Nat) : List BaaiResult :=
  match embed with
  | .error _ => []
  | .ok _ =>
    match client with
    | .error _ => []
    | .ok hits =>
      match (hits.take limit).mapM baaiFormatResult with
      | some results => results
      | none => []

/-- The de-duplication key used by `hybrid_search` (line 351):
`f"{document_id}_{chunk_index}"` over the raw payload values. -/
def baaiDedupKey (r : BaaiResult) : PVal × PVal :=
  (r.document_id, r.chunk_index)

/-- `hybrid_search` lines 349–353: insertion-ordered de-duplication keeping
the higher score on a key conflict. -/
def baaiDedupFold (acc : List ((PVal × PVal) × BaaiResult)) (r : BaaiResult) :
    List ((PVal × PVal) × BaaiResult) :=
  match acc.lookup (baaiDedupKey r) with
  | none => acc ++ [(baaiDedupKey r, r)]
  | some prev =>
    if prev.score < r.score then
      acc.map fun kv => if kv.1 = baaiDedupKey r then (kv.1, r) else kv
    else acc

/-- `baai_vector_store.py` `hybrid_search` (lines 302–363): id-scoped phase,
then similarity phase for the remaining slots excluding already-found
document ids, then de-duplicate by `(document_id, chunk_index)` keeping the
higher score, sort by score descending, truncate to `limit`.  The broad
`except` returns `[]`, and both sub-searches already return `[]` on failure. -/
def baai_hybrid_search (embed : Except String Unit)
    (clientIds clientSim : Except String (List QPoint))
    (documentIds : List Int) (limit : Nat) : List BaaiResult :=
  let idResults :=
    if documentIds.isEmpty then []
    else baai_search_by_document_ids embed clientIds documentIds limit
  let remaining := limit - idResults.length
  let results :=
    if 0 < remaining then
      let excludeIds := idResults.map (·.document_id)
      let similar := baai_search_similar embed clientSim remaining
      idResults ++ similar.filter fun r => !excludeIds.contains r.document_id
    else idResults
  let uniq := (results.foldl baaiDedupFold []).map (·.2)
  (uniq.mergeSort fun a b => b.score ≤ a.score).take limit

/-! ### The default insert path's flat chunk payload

`document_processor.py` `_process_single_document` (lines 79–98) builds a flat
metadata map, `embedding_service.py` `process_document` (lines 111–117) copies
it and adds `chunk_index` / `total_chunks` / `chunk_text`, and
`vector_store.py` `insert_document_chunks` (lines 169–173) stores exactly that
map as the point payload.
-/

/-- The corpus fields read by the default document processor. -/
structure SrcDoc where
  DocumentId : Int
  FileName : String
  DocumentType : String
  TotalReading : Int
  CreatedAt : String
  UpdatedAt : String
  Inactive : Bool

/-- `document_processor.py` lines 80–88: the flat per-document metadata. -/
def processorMetadata (d : SrcDoc) : QPayload :=
  [("DocumentId", PVal.int d.DocumentId),
   ("FileName", PVal.str d.FileName),
   ("DocumentType", PVal.str d.DocumentType),
   ("TotalReading", PVal.int d.TotalReading),
   ("CreatedAt", PVal.str d.CreatedAt),
   ("UpdatedAt", PVal.str d.UpdatedAt),
   ("Inactive", PVal.bool d.Inactive)]

/-- `embedding_service.py` line 116: `chunk_text` preview — the paragraph
truncated to 100 characters with an ellipsis when longer. -/
def chunkTextPreview (paragraph : String) : String :=
  if 100 < paragraph.length then String.mk (paragraph.toList.take 100) ++ "..."
  else paragraph

/-- `embedding_service.py` lines 111–117: the final chunk metadata — the flat
document metadata extended with `chunk_index`, `total_chunks`, `chunk_text`;
this is the entire payload stored by the default `insert_document_chunks`. -/
def default_insert_payload (d : SrcDoc) (chunkIndex totalChunks : Int)
    (paragraph : String) : QPayload :=
  processorMetadata d ++
    [("chunk_index", PVal.int chunkIndex),
     ("total_chunks", PVal.int totalChunks),
     ("chunk_text", PVal.str (chunkTextPreview paragraph))]

/-- `document_processor.py` line 73: the re-ingestion dedup decision — a
document is skipped as already indexed iff `document_exists` reports it. -/
def default_reingestion_skipped (client : Except String (List QPoint))
    (documentId : Int) : Bool :=
  vs_document_exists client documentId

/-! ### MD5 and `_generate_point_id`

`vector_store.py` lines 30–45 and `baai_vector_store.py` lines 30–45 contain
the same function: `int(hashlib.md5(f"{document_id}_{chunk_index}".encode()).hexdigest()[:16], 16)`.
MD5 (RFC 1321, the algorithm behind `hashlib.md5`) is implemented here over
`Nat` with explicit `% 2 ^ 32` wrap-around.
-/

/-- 32-bit truncating addition. -/
def add32 (a b : Nat) : Nat := (a + b) % 2 ^ 32

/-- 32-bit left rotation (operands are < 2 ^ 32). -/
def rotl32 (x s : Nat) : Nat :=
  ((x <<< s) % 2 ^ 32) ||| (x >>> (32 - s))

/-- Round function F (rounds 0–15). -/
def md5F (b c d : Nat) : Nat := (b &&& c) ||| ((b ^^^ 0xffffffff) &&& d)

/-- Round function G (rounds 16–31). -/
def md5G (b c d : Nat) : Nat := (d &&& b) ||| ((d ^^^ 0xffffffff) &&& c)

/-- Round function H (rounds 32–47). -/
def md5H (b c d : Nat) : Nat := b ^^^ c ^^^ d

/-- Round function I (rounds 48–63). -/
def md5I (b c d : Nat) : Nat := c ^^^ (b ||| (d ^^^ 0xffffffff))

/-- The 64 MD5 sine-derived constants `K[i] = floor(2^32 * abs(sin(i+1)))`. -/
def md5K : List Nat :=
  [0xd76aa478, 0xe8c7b756, 0x242070db, 0xc1bdceee,
   0xf57c0faf, 0x4787c62a, 0xa8304613, 0xfd469501,
   0x698098d8, 0x8b44f7af, 0xffff5bb1, 0x895cd7be,
   0x6b901122, 0xfd987193, 0xa679438e, 0x49b40821,
   0xf61e2562, 0xc040b340, 0x265e5a51, 0xe9b6c7aa,
   0xd62f105d, 0x02441453, 0xd8a1e681, 0xe7d3fbc8,
   0x21e1cde6, 0xc33707d6, 0xf4d50d87, 0x455a14ed,
   0xa9e3e905, 0xfcefa3f8, 0x676f02d9, 0x8d2a4c8a,
   0xfffa3942, 0x8771f681, 0x6d9d6122, 0xfde5380c,
   0xa4beea44, 0x4bdecfa9, 0xf6bb4b60, 0xbebfbc70,
   0x289b7ec6, 0xeaa127fa, 0xd4ef3085, 0x04881d05,
   0xd9d4d039, 0xe6db99e5, 0x1fa27cf8, 0xc4ac5665,
   0xf4292244, 0x432aff97, 0xab9423a7, 0xfc93a039,
   0x655b59c3, 0x8f0ccc92, 0xffeff47d, 0x85845dd1,
   0x6fa87e4f, 0xfe2ce6e0, 0xa3014314, 0x4e0811a1,
   0xf7537e82, 0xbd3af235, 0x2ad7d2bb, 0xeb86d391]

/-- The 64 per-round left-rotation amounts. -/
def md5S : List Nat :=
  [7, 12, 17, 22, 7, 12, 17, 22, 7, 12, 17, 22, 7, 12, 17, 22,
   5, 9, 14, 20, 5, 9, 14, 20, 5, 9, 14, 20, 5, 9, 14, 20,
   4, 11, 16, 23, 4, 11, 16, 23, 4, 11, 16, 23, 4, 11, 16, 23,
   6, 10, 15, 21, 6, 10, 15, 21, 6, 10, 15, 21, 6, 10, 15, 21]

/-- One MD5 operation on the register state `(a, b, c, d)`. -/
def md5Op (msg : List Nat) (st : Nat × Nat × Nat × Nat) (i : Nat) :
    Nat × Nat × Nat × Nat :=
  let (a, b, c, d) := st
  let fg : Nat × Nat :=
    if i < 16 then (md5F b c d, i)
    else if i < 32 then (md5G b c d, (5 * i + 1) % 16)
    else if i < 48 then (md5H b c d, (3 * i + 5) % 16)
    else (md5I b c d, (7 * i) % 16)
  let tmp := (a + fg.1 + md5K.getD i 0 + msg.getD fg.2 0) % 2 ^ 32
  (d, add32 b (rotl32 tmp (md5S.getD i 0)), b, c)

/-- Decode one 64-byte block into 16 little-endian 32-bit words. -/
def md5Words (block : List Nat) : List Nat :=
  (List.range 16).map fun j =>
    block.getD (4 * j) 0 + 2 ^ 8 * block.getD (4 * j + 1) 0 +
      2 ^ 16 * block.getD (4 * j + 2) 0 + 2 ^ 24 * block.getD (4 * j + 3) 0

/-- Process one 64-byte block. -/
def md5Block (st : Nat × Nat × Nat × Nat) (block : List Nat) :
    Nat × Nat × Nat × Nat :=
  let msg := md5Words block
  let r := (List.range 64).foldl (md5Op msg) st
  (add32 st.1 r.1, add32 st.2.1 r.2.1, add32 st.2.2.1 r.2.2.1,
   add32 st.2.2.2 r.2.2.2)

/-- Split a byte list into 64-byte blocks. -/
def md5Chunks (bytes : List Nat) : List (List Nat) :=
  (List.range ((bytes.length + 63) / 64)).map fun k =>
    (bytes.drop (64 * k)).take 64

/-- RFC 1321 padding: `0x80`, zeros to 56 mod 64, then the bit length as
eight little-endian bytes. -/
def md5Pad (bytes : List Nat) : List Nat :=
  let n := bytes.length
  let zeros := (119 - n % 64) % 64
  bytes ++ [0x80] ++ List.replicate zeros 0 ++
    (List.range 8).map fun j => (8 * n) >>> (8 * j) % 2 ^ 8

/-- The 16 digest bytes: final registers serialized little-endian. -/
def md5Digest (bytes : List Nat) : List Nat :=
  let st := (md5Chunks (md5Pad bytes)).foldl md5Block
    (0x67452301, 0xefcdab89, 0x98badcfe, 0x10325476)
  let word : Nat → List Nat := fun w =>
    [w % 2 ^ 8, w >>> 8 % 2 ^ 8, w >>> 16 % 2 ^ 8, w >>> 24 % 2 ^ 8]
  word st.1 ++ word st.2.1 ++ word st.2.2.1 ++ word st.2.2.2

/-- One lowercase hex digit. -/
def hexDigit (n : Nat) : Char :=
  if n < 10 then Char.ofNat (48 + n) else Char.ofNat (87 + n)

/-- `hexdigest()`: the digest bytes as 32 lowercase hex characters. -/
def md5HexDigest (bytes : List Nat) : List Char :=
  (md5Digest bytes).flatMap fun b => [hexDigit (b / 16), hexDigit (b % 16)]

/-- `int(s, 16)` over lowercase hex characters. -/
def hexToNat (s : List Char) : Nat :=
  s.foldl (fun acc c =>
    16 * acc + (if c.toNat ≤ 57 then c.toNat - 48 else c.toNat - 87)) 0

/-- `str.encode()`: UTF-8 bytes; the strings hashed here
(`f"{document_id}_{chunk_index}"` for Python ints) are pure ASCII, for which
UTF-8 is the identity on code points. -/
def strBytes (s : String) : List Nat := s.toList.map Char.toNat

/-- `vector_store.py` lines 30–45 (`VectorStoreService._generate_point_id`):
MD5 of `f"{document_id}_{chunk_index}"`, first 16 hex characters, read base 16. -/
def vs_generate_point_id (documentId chunkIndex : Int) : Nat :=
  hexToNat ((md5HexDigest (strBytes s!"{documentId}_{chunkIndex}")).take 16)

/-- `baai_vector_store.py` lines 30–45
(`BAAIVectorStoreService._generate_point_id`): the same computation, copied
verbatim in the source. -/
def baai_generate_point_id (documentId chunkIndex : Int) : Nat :=
  hexToNat ((md5HexDigest (strBytes s!"{documentId}_{chunkIndex}")).take 16)


/-! ### The text chunker `split_into_paragraphs`

`embedding_service.py` lines 26–66 and `baai_embedding_service.py` lines
25–65 contain the same function (the two services differ only in the model
they load).  Python strings are modelled as `List Char`; `str.strip()` /
`re.sub(r'\s+', ' ', ·)` / `re.split(r'[.!?]+', ·)` are embedded below.
-/

/-- Python `\s` (ASCII): space, tab, newline, carriage return, vertical tab,
form feed. -/
def pyWS (c : Char) : Bool :=
  c == ' ' || c == '\t' || c == '\n' || c == '\r' ||
    c.toNat == 11 || c.toNat == 12

/-- Python `str.strip()`: drop leading and trailing whitespace. -/
def pyStrip (s : List Char) : List Char :=
  ((s.dropWhile pyWS).reverse.dropWhile pyWS).reverse

/-- `re.sub(r'\s+', ' ', ·)`: replace each maximal whitespace run by a single
space. -/
def collapseWS : List Char → List Char
  | [] => []
  | c :: cs =>
    if pyWS c then
      match cs with
      | [] => [' ']
      | d :: _ => if pyWS d then collapseWS cs else ' ' :: collapseWS cs
    else c :: collapseWS cs

/-- Line 37: `text = re.sub(r'\s+', ' ', text.strip())`. -/
def normalizeText (s : List Char) : List Char :=
  collapseWS (pyStrip s)

/-- A sentence-terminal character of the split pattern `[.!?]+`. -/
def isTermChar (c : Char) : Bool :=
  c == '.' || c == '!' || c == '?'

/-- `re.split(r'[.!?]+', ·)`: split at each maximal run of sentence-terminal
characters (like `re.split`, a terminal run at either end contributes an
empty segment, and the empty input yields one empty segment). -/
def splitTermRuns : List Char → List (List Char)
  | [] => [[]]
  | c :: cs =>
    if isTermChar c then
      match cs with
      | [] => [[], []]
      | d :: _ =>
        if isTermChar d then splitTermRuns cs else [] :: splitTermRuns cs
    else
      match splitTermRuns cs with
      | [] => [[c]]
      | h :: t => (c :: h) :: t

/-- `self.max_chunk_size = 512`. -/
def maxChunkSize : Nat := 512

/-- `self.overlap_size = 50`. -/
def overlapSize : Nat := 50

/-- Lines 44–55: the greedy sentence-accumulation loop.  Each raw sentence is
stripped and, if empty, skipped; if appending it would push the running chunk
past `max_chunk_size`, the (stripped) running chunk is flushed and the
sentence starts a new chunk; otherwise it is appended with a single space. -/
def accumulateSentences :
    List (List Char) → List Char → List (List Char) →
      List Char × List (List Char)
  | [], cur, paras => (cur, paras)
  | s :: rest, cur, paras =>
    let t := pyStrip s
    if t.isEmpty then accumulateSentences rest cur paras
    else if maxChunkSize < cur.length + t.length then
      accumulateSentences rest t
        (if cur.isEmpty then paras else paras ++ [pyStrip cur])
    else
      accumulateSentences rest (if cur.isEmpty then t else cur ++ ' ' :: t) paras

/-- Lines 62–64: the fixed-width fallback
`[text[i:i+512] for i in range(0, len(text), 512 - 50)]`. -/
def fallbackSlices (t : List Char) : List (List Char) :=
  (List.range ((t.length + (maxChunkSize - overlapSize) - 1) /
      (maxChunkSize - overlapSize))).map fun k =>
    (t.drop (k * (maxChunkSize - overlapSize))).take maxChunkSize

/-- `EmbeddingService.split_into_paragraphs` /
`BAAIEmbeddingService.split_into_paragraphs`: normalize, split on
sentence-terminal runs, accumulate greedily, flush the final chunk, and fall
back to fixed-width slicing only when no chunk was produced. -/
def split_into_paragraphs (text : List Char) : List (List Char) :=
  let t := normalizeText text
  let acc := accumulateSentences (splitTermRuns t) [] []
  let paras := if acc.1.isEmpty then acc.2 else acc.2 ++ [pyStrip acc.1]
  if paras.isEmpty then fallbackSlices t else paras

/-- The stripped, nonempty sentences of a raw sentence list — exactly the
sentences the accumulation loop does not skip. -/
def stripFrags (sents : List (List Char)) : List (List Char) :=
  (sents.map pyStrip).filter fun s => !s.isEmpty

/-- The stripped, nonempty sentence fragments of a (normalized) text — the
sentences the loop actually accumulates. -/
def fragsOf (t : List Char) : List (List Char) :=
  stripFrags (splitTermRuns t)

/-- Joining chunks with single spaces (what the accumulation loop produces
when nothing overflows). -/
def joinSp : List (List Char) → List Char
  | [] => []
  | s :: rest =>
    match rest with
    | [] => s
    | _ :: _ => s ++ ' ' :: joinSp rest


/-! ### The audit-evaluation pipeline

`ai_service.py` (`AIService`) and `ai_process_service.py` (`AIProcessService`).
The LLM call and per-question unexpected exceptions are external
nondeterminism, modelled by an oracle `String → LLMOutcome` (one outcome per
QuestionID).  JSON values that the code only passes through are modelled at
the granularity the code observes them.
-/

/-- A document handed to the AI service: `{"FileName": …, "content": …}`. -/
structure AiDoc where
  FileName : String
  content : String
deriving DecidableEq

/-- One `FilesSearch` entry: `{"FileName": …, "DocumentID": …}`. -/
structure FileSearchEntry where
  FileName : String
  DocumentID : String
deriving DecidableEq

/-- A per-question response dictionary.  `Comments` is optional because the
LLM path does not back-fill a missing `Comments` key. -/
structure QuestionResponse where
  ComplianceLevel : Int
  Comments : Option String
  FilesSearch : List FileSearchEntry
  QuestionID : String
deriving DecidableEq

/-- The `Comments` value found in parsed LLM JSON, at the granularity the
normalization code inspects it: a string, a list (joined with spaces), or
anything else (stringified — carried here as its string rendering). -/
inductive JsonComments where
  | str (s : String)
  | list (items : List String)
  | other (rendering : String)
deriving DecidableEq

/-- `ai_service.py` lines 379–384: normalize `Comments` to a single string. -/
def normalizeComments : JsonComments → String
  | .str s => s
  | .list items => String.intercalate " " items
  | .other rendering => rendering

/-- The four keys of a successfully parsed LLM JSON object, each possibly
absent.  `questionID` is the value after the `str(…)` coercion of lines
387–388. -/
structure ParsedLLM where
  complianceLevel : Option Int
  comments : Option JsonComments
  filesSearch : Option (List FileSearchEntry)
  questionID : Option String
deriving DecidableEq

/-- The externally determined outcome of processing one question against the
real API: the call returned parseable JSON, the call returned unparseable
output (`json.JSONDecodeError`), the call raised, or some other exception was
raised inside the per-question body. -/
inductive LLMOutcome where
  | ok (parsed : ParsedLLM)
  | jsonError
  | callFailed (msg : String)
  | otherError (msg : String)

/-- The dynamic prompt catalogue: `NameSection → Text`
(`AIService.dynamic_prompts`). -/
abbrev PromptMap : Type := List (String × String)

/-- `dict.get` over the prompt catalogue. -/
def promptLookup (prompts : PromptMap) (questionId : String) : Option String :=
  match prompts with
  | [] => none
  | (k, v) :: rest => if k = questionId then some v else promptLookup rest questionId

/-- Python `str.strip()` on a `String`. -/
def pyStripStr (s : String) : String :=
  (pyStrip s.toList).asString

/-- `ai_service.py` lines 283–290: the question title — the stripped first
line of the question's dynamic prompt, or `"Unknown Question"` when the
prompt is absent or empty (`dict.get(…, "")` followed by a falsiness test). -/
def questionTitle (prompts : PromptMap) (questionId : String) : String :=
  match promptLookup prompts questionId with
  | none => "Unknown Question"
  | some p =>
    if p = "" then "Unknown Question"
    else pyStripStr (p.toList.takeWhile (fun c => c ≠ '\n')).asString

/-- `ai_service.py` `_generate_compliance_comments_for_question`
(lines 277–327): the deterministic simulation narrative. -/
def generateComplianceComments (prompts : PromptMap) (docs : List AiDoc)
    (questionId : String) : String :=
  let title := questionTitle prompts questionId
  let docNames := String.intercalate ", " (docs.map (·.FileName))
  let nDocs := toString docs.length
  let part1 := s!"Assessment for {title} (QuestionID: {questionId}). The operation has submitted {nDocs} document(s) for review: {docNames}. Upon examination of the provided documentation, the following compliance assessment is made."
  let hasSubstantial := docs.any fun d => 50 < d.content.length
  let rest :=
    if hasSubstantial then
      [s!"The submitted documents contain operational information relevant to {title}. However, comprehensive compliance documentation should address all specific requirements outlined in the PrimusGFS Module 9 standards for this question.",
       "To achieve full compliance, the operation should ensure all required elements are clearly documented and demonstrate adherence to the specific criteria for this assessment area."]
    else
      [s!"The submitted documents appear to contain limited content relevant to {title}. Complete documentation must include detailed information addressing all requirements specified for this particular assessment criterion.",
       s!"The current documentation is insufficient to demonstrate compliance with the specific requirements of {title}. Additional comprehensive documentation is required."]
  String.intercalate " " (part1 :: rest)

/-- `ai_service.py` `_simulate_audit_response_with_question_id`
(lines 184–208): the deterministic local simulation; always
`ComplianceLevel = 2`, one `FilesSearch` entry per document (file name doubles
as document id), `QuestionID` echoing the input. -/
def simulateAuditResponse (prompts : PromptMap) (docs : List AiDoc)
    (questionId : String) : QuestionResponse :=
  { ComplianceLevel := 2
    Comments := some (if docs.isEmpty then
        s!"No documents were provided for QuestionID {questionId}. Without proper documentation, compliance cannot be verified. The operation must provide adequate documentation to meet PrimusGFS Module 9 requirements."
      else generateComplianceComments prompts docs questionId)
    FilesSearch := docs.map fun d => { FileName := d.FileName, DocumentID := d.FileName }
    QuestionID := questionId }

/-- `ai_service.py` lines 362–390: normalization of a successfully parsed LLM
JSON object — back-fill `ComplianceLevel` (with 2), `FilesSearch` (from the
submitted documents) and `QuestionID` (with the requested id) only when the
key is missing; normalize `Comments` to a string when present. -/
def normalizeLLMResponse (parsed : ParsedLLM) (docs : List AiDoc)
    (questionId : String) : QuestionResponse :=
  { ComplianceLevel := parsed.complianceLevel.getD 2
    Comments := parsed.comments.map normalizeComments
    FilesSearch := parsed.filesSearch.getD
      (docs.map fun d => { FileName := d.FileName, DocumentID := d.FileName })
    QuestionID := parsed.questionID.getD questionId }

/-- `ai_service.py` lines 147–152: the synthetic per-question error response
emitted by the outer `except` of `process_multiple_questions`. -/
def questionErrorResponse (questionId msg : String) : QuestionResponse :=
  { ComplianceLevel := 2
    Comments := some s!"Error processing QuestionID {questionId}: {msg}"
    FilesSearch := []
    QuestionID := questionId }

/-- The body of the per-question loop of `process_multiple_questions`
(lines 123–152): simulate when the configured key is the sentinel `"xx"`;
otherwise call the API — a parse failure or a call failure falls back to the
simulation (lines 392–395 and 136–140), and any other exception becomes the
synthetic error response (lines 144–152). -/
def processOneQuestion (apiKey : String) (prompts : PromptMap)
    (docs : List AiDoc) (oracle : String → LLMOutcome)
    (questionId : String) : QuestionResponse :=
  if apiKey = "xx" then simulateAuditResponse prompts docs questionId
  else
    match oracle questionId with
    | .ok parsed => normalizeLLMResponse parsed docs questionId
    | .jsonError => simulateAuditResponse prompts docs questionId
    | .callFailed _ => simulateAuditResponse prompts docs questionId
    | .otherError msg => questionErrorResponse questionId msg

/-- `AIService.process_multiple_questions` (lines 119–154): one response
appended per question id, in order. -/
def process_multiple_questions (apiKey : String) (prompts : PromptMap)
    (docs : List AiDoc) (oracle : String → LLMOutcome)
    (questionIds : List String) : List QuestionResponse :=
  questionIds.map (processOneQuestion apiKey prompts docs oracle)

/-- `list(set(question_ids))` de-duplication
(`AIProcessService._extract_question_ids`, lines 116–132; every
`QuestionDocument` has a `QuestionID` attribute).  CPython's set iteration
order is unspecified; the model keeps first occurrences, and the verified
statements are order-insensitive except through this definition itself. -/
def extract_question_ids (questionIds : List Int) : List Int :=
  questionIds.foldl (fun acc q => if q ∈ acc then acc else acc ++ [q]) []

/-- `AIProcessService._prepare_documents` (lines 134–167): the fixed example
documents substituted for every request. -/
def exampleDocs : List AiDoc :=
  [{ FileName := "hola.pdf"
     content := "este es el contenido del documento weodkew\nwedwe\nwedwe\nwedwe" },
   { FileName := "hola2.pdf"
     content := "este es el contenido del documento 2\nlinea 1\nlinea 2" }]

/-- `AIProcessService.process_audit` (lines 18–47, success path): extract the
de-duplicated QuestionIDs, stringify them, and evaluate them with
`process_multiple_questions` over the fixed example documents. -/
def process_audit (apiKey : String) (prompts : PromptMap)
    (oracle : String → LLMOutcome) (questionIds : List Int) :
    List QuestionResponse :=
  process_multiple_questions apiKey prompts exampleDocs oracle
    ((extract_question_ids questionIds).map toString)

/-- `AIProcessService.process_audit` (lines 49–66, failure path): one
synthetic error response per extracted QuestionID, or a single `"unknown"`
response when extraction produced none. -/
def process_audit_error_responses (questionIds : List Int) (msg : String) :
    List QuestionResponse :=
  let qids := extract_question_ids questionIds
  let errs := qids.map fun qid =>
    { ComplianceLevel := 2
      Comments := some s!"Error processing audit: {msg}. Unable to complete compliance assessment."
      FilesSearch := []
      QuestionID := toString qid : QuestionResponse }
  if errs.isEmpty then
    [{ ComplianceLevel := 2
       Comments := some s!"Error processing audit: {msg}. Unable to complete compliance assessment."
       FilesSearch := []
       QuestionID := "unknown" }]
  else errs

/-! ### The relational audit query

`audit_service.py` `AuditService.get_audit_documents` (lines 42–82) with
`models/audit.py` (`AuditDocument.from_dict`, `StoredProcedureParameters`).
The relational access service is modelled as a function from stored-procedure
calls to result rows, and the invocations made are returned as an explicit
trace.
-/

/-- One `execute_stored_procedure` invocation: procedure name and parameter
dictionary (insertion-ordered). -/
structure SPCall where
  name : String
  params : List (String × Int)
deriving DecidableEq

/-- A result row: column name → value. -/
abbrev AuditRow : Type := List (String × PVal)

/-- `models/audit.py` `AuditDocument` — every field arrives via `dict.get`,
so each is optional. -/
structure AuditDocumentRec where
  document_id : Option PVal
  activity_category_id : Option PVal
  type_name : Option PVal
  author_title : Option PVal
  document_url : Option PVal
  file_name : Option PVal
  compliance_grid_id : Option PVal
  relation_question_id : Option PVal
  short_name : Option PVal
  used_reference : Option PVal
deriving DecidableEq

/-- `AuditDocument.from_dict` (lines 28–50): total — `dict.get` never raises. -/
def auditDocumentFromDict (row : AuditRow) : AuditDocumentRec :=
  { document_id := plookup row "DocumentID"
    activity_category_id := plookup row "ActivityCategoryId"
    type_name := plookup row "TypeName"
    author_title := plookup row "AuthorTitle"
    document_url := plookup row "DocumentURL"
    file_name := plookup row "FileName"
    compliance_grid_id := plookup row "ComplianceGridID"
    relation_question_id := plookup row "RelationQuestionID"
    short_name := plookup row "ShortName"
    used_reference := plookup row "UsedReference" }

/-- `StoredProcedureParameters.procedure_name` (`models/audit.py` line 158). -/
def auditDocumentsProcName : String :=
  "AuditHeader_Get_AvailableActivityDocumentsAzzuleAI"

/-- `StoredProcedureParameters.get_parameters` (lines 160–170). -/
def spGetParameters (auditHeaderId questionId : Int) : List (String × Int) :=
  [("Auditheaderid", auditHeaderId), ("QuestionID", questionId)]

/-- `AuditService.get_audit_documents` (lines 42–82): reject
`audit_header_id <= 0` with a `ValueError` before any database call;
otherwise execute the fixed stored procedure once with
`{Auditheaderid, QuestionID}` (`question_id or 0` maps `None` to 0 and is the
identity on integers) and map each row.  The second component is the trace of
`execute_stored_procedure` invocations. -/
def get_audit_documents (db : SPCall → List AuditRow) (auditHeaderId : Int)
    (questionId : Option Int) :
    Except String (List AuditDocumentRec) × List SPCall :=
  if auditHeaderId ≤ 0 then
    (.error "audit_header_id debe ser mayor a 0", [])
  else
    let call : SPCall :=
      { name := auditDocumentsProcName
        params := spGetParameters auditHeaderId (questionId.getD 0) }
    (.ok ((db call).map auditDocumentFromDict), [call])

/-! ## Theorems -/

/-- **C8** — `AuditService.get_audit_documents`: a non-positive
`audit_header_id` raises a `ValueError` before any relational call (the
invocation trace is empty), and a positive one invokes the fixed stored
procedure `AuditHeader_Get_AvailableActivityDocumentsAzzuleAI` exactly once,
with parameters `{Auditheaderid, QuestionID}`. -/
theorem get_audit_documents_validation_and_single_call
    (db : SPCall → List AuditRow) (auditHeaderId : Int)
    (questionId : Option Int) :
    (auditHeaderId ≤ 0 →
      (get_audit_documents db auditHeaderId questionId).2 = [] ∧
        ∃ msg, (get_audit_documents db auditHeaderId questionId).1 = .error msg)
    ∧ (0 < auditHeaderId →
      (get_audit_documents db auditHeaderId questionId).2 =
        [{ name := "AuditHeader_Get_AvailableActivityDocumentsAzzuleAI"
           params := [("Auditheaderid", auditHeaderId),
                      ("QuestionID", questionId.getD 0)] }]) := by
  constructor
  · intro h
    simp [get_audit_documents, h]
  · intro h
    have h2 : ¬ auditHeaderId ≤ 0 := not_le.mpr h
    simp [get_audit_documents, h2, auditDocumentsProcName, spGetParameters]

/-- **C8 witness** — at `audit_header_id = 0` no invocation happens and a
validation error is raised; at `audit_header_id = 5` (with no question id)
exactly the expected single invocation happens. -/
theorem get_audit_documents_validation_and_single_call_witness :
    ((get_audit_documents (fun _ => []) 0 none).2 = [] ∧
      ∃ msg, (get_audit_documents (fun _ => []) 0 none).1 = .error msg)
    ∧ (get_audit_documents (fun _ => []) 5 none).2 =
        [{ name := "AuditHeader_Get_AvailableActivityDocumentsAzzuleAI"
           params := [("Auditheaderid", 5), ("QuestionID", 0)] }] :=
  ⟨(get_audit_documents_validation_and_single_call (fun _ => []) 0 none).1
      (by decide),
   (get_audit_documents_validation_and_single_call (fun _ => []) 5 none).2
      (by decide)⟩

set_option maxRecDepth 8000 in
/-- **C9** — the two profiles' `_generate_point_id` are the same function
(their sources are identical): both return the integer whose base-16 digits
are the first 16 hex characters of the MD5 digest of
`"{document_id}_{chunk_index}"`; the function is deterministic, and
`(100, 0)` and `(100, 1)` produce different ids. -/
theorem generate_point_id_profiles_agree :
    (∀ documentId chunkIndex : Int,
      vs_generate_point_id documentId chunkIndex =
        baai_generate_point_id documentId chunkIndex)
    ∧ (∀ d c d2 c2 : Int, d = d2 → c = c2 →
        vs_generate_point_id d c = vs_generate_point_id d2 c2)
    ∧ vs_generate_point_id 100 0 ≠ vs_generate_point_id 100 1 := by
  refine ⟨fun _ _ => rfl, ?_, ?_⟩
  · rintro d c d2 c2 rfl rfl
    rfl
  · decide

/-- **C9 witness** — determinism instantiated at `(100, 0)`. -/
theorem generate_point_id_profiles_agree_witness :
    vs_generate_point_id 100 0 = vs_generate_point_id 100 0 :=
  generate_point_id_profiles_agree.2.1 100 0 100 0 rfl rfl

/-- **C10** — the BAAI store's search operations swallow failures of the
embedding generation or of the vector-database call and return `[]`, while
the default store's `search_by_document_ids` and `search_similar` re-raise
them. -/
theorem baai_searches_never_raise (e : String) (embed : Except String Unit)
    (client clientIds clientSim : Except String (List QPoint))
    (documentIds : List Int) (limit : Nat) :
    baai_search_by_document_ids (.error e) client documentIds limit = []
    ∧ baai_search_by_document_ids (.ok ()) (.error e) documentIds limit = []
    ∧ baai_search_similar (.error e) client limit = []
    ∧ baai_search_similar (.ok ()) (.error e) limit = []
    ∧ baai_hybrid_search (.error e) clientIds clientSim documentIds limit = []
    ∧ baai_hybrid_search embed (.error e) (.error e) documentIds limit = []
    ∧ vs_search_by_document_ids (.error e) client documentIds limit = .error e
    ∧ vs_search_by_document_ids (.ok ()) (.error e) documentIds limit = .error e
    ∧ vs_search_similar (.error e) client limit = .error e
    ∧ vs_search_similar (.ok ()) (.error e) limit = .error e := by
  refine ⟨rfl, rfl, rfl, rfl, ?_, ?_, rfl, rfl, rfl, rfl⟩
  · simp [baai_hybrid_search, baai_search_by_document_ids, baai_search_similar]
  · cases embed with
    | error e2 =>
      simp [baai_hybrid_search, baai_search_by_document_ids, baai_search_similar]
    | ok u =>
      simp [baai_hybrid_search, baai_search_by_document_ids, baai_search_similar]

/-- The whole `must` list of the BAAI id filter pins the same payload field
`"DocumentId"` to every requested id, so two distinct ids make it
unsatisfiable. -/
theorem baai_filter_unsat_of_two_ids (documentIds : List Int) (p : QPayload)
    (a b : Int) (ha : a ∈ documentIds) (hb : b ∈ documentIds) (hne : a ≠ b) :
    filterHolds p (baai_document_ids_filter documentIds) = false := by
  have hmema : ({ key := "DocumentId", value := PVal.int a } : FieldCondition) ∈
      (baai_document_ids_filter documentIds).must :=
    List.mem_map.mpr ⟨a, ha, rfl⟩
  have hmemb : ({ key := "DocumentId", value := PVal.int b } : FieldCondition) ∈
      (baai_document_ids_filter documentIds).must :=
    List.mem_map.mpr ⟨b, hb, rfl⟩
  have hfail : ∃ c ∈ (baai_document_ids_filter documentIds).must,
      condHolds p c = false := by
    by_cases hva : plookup p "DocumentId" = some (PVal.int a)
    · refine ⟨_, hmemb, ?_⟩
      simp only [condHolds, hva, decide_eq_false_iff_not]
      intro hsome
      exact hne (by simpa using hsome)
    · exact ⟨_, hmema, by simp only [condHolds, decide_eq_false_iff_not]; exact hva⟩
  obtain ⟨c, hc, hcf⟩ := hfail
  have hall : (baai_document_ids_filter documentIds).must.all (condHolds p) = false := by
    cases h2 : (baai_document_ids_filter documentIds).must.all (condHolds p)
    · rfl
    · exfalso
      have hcd := (List.all_eq_true.mp h2) c hc
      rw [hcf] at hcd
      exact Bool.false_ne_true hcd
  simp [filterHolds, hall]

/-- **C1** — id-scoped search semantics of the two profiles: the default
filter ORs one equality condition per requested id (a payload matches iff its
`"metadata.DocumentId"` equals one of the ids), the BAAI filter ANDs one
equality condition per requested id on the single field `"DocumentId"`; with
two or more distinct ids the BAAI filter matches no payload and the BAAI
id-scoped search returns zero hits over every collection, while with a
single-element id list it can match (a payload holding that id does). -/
theorem id_scoped_search_or_vs_and (documentIds : List Int) (p : QPayload)
    (db : List QPoint) (limit : Nat) :
    (documentIds ≠ [] →
      (filterHolds p (vs_document_ids_filter documentIds) = true ↔
        ∃ i ∈ documentIds, plookup p "metadata.DocumentId" = some (PVal.int i)))
    ∧ (∀ a b, a ∈ documentIds → b ∈ documentIds → a ≠ b →
        filterHolds p (baai_document_ids_filter documentIds) = false)
    ∧ (∀ a b, a ∈ documentIds → b ∈ documentIds → a ≠ b →
        baai_search_by_document_ids (.ok ()) (.ok db) documentIds limit = [])
    ∧ (∀ i : Int,
        filterHolds [("DocumentId", PVal.int i)]
          (baai_document_ids_filter [i]) = true) := by
  refine ⟨?_, ?_, ?_, ?_⟩
  · intro hne
    simp [filterHolds, vs_document_ids_filter, condHolds, hne,
      List.any_map, List.any_eq_true, Function.comp]
  · exact fun a b ha hb hab => baai_filter_unsat_of_two_ids _ _ a b ha hb hab
  · intro a b ha hb hab
    have hfil : db.filter
        (fun pt => filterHolds pt.payload (baai_document_ids_filter documentIds)) = [] := by
      apply List.filter_eq_nil_iff.mpr
      intro pt _
      simp [baai_filter_unsat_of_two_ids documentIds pt.payload a b ha hb hab]
    simp only [baai_search_by_document_ids, qdrantSearch, hfil, List.take_nil]
    rfl
  · intro i
    simp [filterHolds, baai_document_ids_filter, condHolds, plookup]

/-- **C1 witness** — ids `[1, 2]`: the default filter matches a payload whose
`"metadata.DocumentId"` is `2`; the BAAI id-scoped search over a collection
holding chunks of documents 1 and 2 returns zero hits; a single id `[7]` can
match. -/
theorem id_scoped_search_or_vs_and_witness :
    (filterHolds [("metadata.DocumentId", PVal.int 2)]
        (vs_document_ids_filter [1, 2]) = true ↔
      ∃ i ∈ [(1 : Int), 2],
        plookup [("metadata.DocumentId", PVal.int 2)] "metadata.DocumentId" =
          some (PVal.int i))
    ∧ baai_search_by_document_ids (.ok ()) (.ok
        [{ id := 0, score := 1, payload := [("DocumentId", PVal.int 1)] },
         { id := 1, score := 1, payload := [("DocumentId", PVal.int 2)] }])
        [1, 2] 10 = []
    ∧ filterHolds [("DocumentId", PVal.int 7)]
        (baai_document_ids_filter [7]) = true :=
  ⟨(id_scoped_search_or_vs_and [1, 2] [("metadata.DocumentId", PVal.int 2)]
      [] 10).1 (by decide),
   (id_scoped_search_or_vs_and [1, 2] []
      [{ id := 0, score := 1, payload := [("DocumentId", PVal.int 1)] },
       { id := 1, score := 1, payload := [("DocumentId", PVal.int 2)] }]
      10).2.2.1 1 2 (by decide) (by decide) (by decide),
   (id_scoped_search_or_vs_and [7] [] [] 10).2.2.2 7⟩

/-- Payloads written by the default insert path have no
`"metadata.DocumentId"` field: their keys are the flat document metadata plus
the chunk fields. -/
theorem default_insert_payload_no_nested_key (d : SrcDoc)
    (chunkIndex totalChunks : Int) (paragraph : String) :
    plookup (default_insert_payload d chunkIndex totalChunks paragraph)
      "metadata.DocumentId" = none := rfl

/-- **C2** — in the default profile the insert path writes the document id at
the top-level key `"DocumentId"` while `document_exists` filters on the
nested path `"metadata.DocumentId"`; hence over any store containing only
points written by the default insert path, `document_exists` is `false` for
every document id, and the processor's re-ingestion check never skips a
document. -/
theorem default_document_exists_always_false (db : List QPoint)
    (documentId : Int)
    (h : ∀ pt ∈ db, ∃ d chunkIndex totalChunks paragraph,
      pt.payload = default_insert_payload d chunkIndex totalChunks paragraph) :
    vs_document_exists (.ok db) documentId = false ∧
    default_reingestion_skipped (.ok db) documentId = false := by
  have hfil : db.filter
      (fun pt => filterHolds pt.payload (vs_document_exists_filter documentId)) = [] := by
    apply List.filter_eq_nil_iff.mpr
    intro pt hpt
    obtain ⟨d, ci, tc, par, hp⟩ := h pt hpt
    simp [filterHolds, vs_document_exists_filter, condHolds, hp,
      default_insert_payload_no_nested_key]
  constructor
  · simp [vs_document_exists, qdrantSearch, hfil]
  · simp [default_reingestion_skipped, vs_document_exists, qdrantSearch, hfil]

/-- **C2 witness** — a store holding one chunk of document 7 written by the
default insert path: `document_exists 7` is `false` and re-ingestion of 7 is
not skipped. -/
theorem default_document_exists_always_false_witness :
    vs_document_exists (.ok
      [{ id := 0, score := 0
         payload := default_insert_payload
           { DocumentId := 7, FileName := "f.pdf", DocumentType := "pdf",
             TotalReading := 0, CreatedAt := "2024", UpdatedAt := "2024",
             Inactive := false } 0 1 "some text" }]) 7 = false ∧
    default_reingestion_skipped (.ok
      [{ id := 0, score := 0
         payload := default_insert_payload
           { DocumentId := 7, FileName := "f.pdf", DocumentType := "pdf",
             TotalReading := 0, CreatedAt := "2024", UpdatedAt := "2024",
             Inactive := false } 0 1 "some text" }]) 7 = false :=
  default_document_exists_always_false _ 7
    (fun pt hpt => by
      rw [List.mem_singleton] at hpt
      subst hpt
      exact ⟨{ DocumentId := 7, FileName := "f.pdf", DocumentType := "pdf",
               TotalReading := 0, CreatedAt := "2024", UpdatedAt := "2024",
               Inactive := false }, 0, 1, "some text", rfl⟩)

/-- The `list(set(…))` model keeps each id once: no duplicates. -/
theorem extract_question_ids_nodup (questionIds : List Int) :
    (extract_question_ids questionIds).Nodup := by
  have haux : ∀ (l : List Int) (acc : List Int), acc.Nodup →
      (l.foldl (fun acc q => if q ∈ acc then acc else acc ++ [q]) acc).Nodup := by
    intro l
    induction l with
    | nil => exact fun acc h => h
    | cons q rest ih =>
      intro acc hacc
      simp only [List.foldl_cons]
      by_cases hq : q ∈ acc
      · simpa [hq] using ih acc hacc
      · have : (acc ++ [q]).Nodup := by
          simp [List.nodup_append, hacc, hq]
        simpa [hq] using ih (acc ++ [q]) this
  exact haux questionIds [] List.nodup_nil

/-- De-duplication preserves exactly the set of ids. -/
theorem extract_question_ids_mem (questionIds : List Int) (q : Int) :
    q ∈ extract_question_ids questionIds ↔ q ∈ questionIds := by
  have haux : ∀ (l : List Int) (acc : List Int) (x : Int),
      x ∈ l.foldl (fun acc q => if q ∈ acc then acc else acc ++ [q]) acc ↔
        x ∈ acc ∨ x ∈ l := by
    intro l
    induction l with
    | nil => simp
    | cons a rest ih =>
      intro acc x
      simp only [List.foldl_cons]
      by_cases ha : a ∈ acc
      · rw [if_pos ha, ih]
        constructor
        · rintro (h | h)
          · exact Or.inl h
          · exact Or.inr (List.mem_cons_of_mem _ h)
        · rintro (h | h)
          · exact Or.inl h
          · rcases List.mem_cons.mp h with rfl | h2
            · exact Or.inl ha
            · exact Or.inr h2
      · rw [if_neg ha, ih]
        simp only [List.mem_append, List.mem_singleton, List.mem_cons]
        tauto
  simpa using haux questionIds [] q

/-- **C5** — `process_audit` evaluates the de-duplicated QuestionIDs: for
every request and every LLM behavior it returns exactly one response per
distinct QuestionID (the distinct ids of the request's groups, without
duplicates), and on the `[5, 5, 9]` example it returns exactly 2 responses,
one carrying `"5"` and one carrying `"9"`. -/
theorem process_audit_one_response_per_distinct_question (apiKey : String)
    (prompts : PromptMap) (oracle : String → LLMOutcome)
    (questionIds : List Int) :
    (process_audit apiKey prompts oracle questionIds).length =
      (extract_question_ids questionIds).length
    ∧ (extract_question_ids questionIds).Nodup
    ∧ (∀ q : Int, q ∈ extract_question_ids questionIds ↔ q ∈ questionIds)
    ∧ (process_audit "xx" prompts oracle [5, 5, 9]).length = 2
    ∧ "5" ∈ (process_audit "xx" prompts oracle [5, 5, 9]).map
        QuestionResponse.QuestionID
    ∧ "9" ∈ (process_audit "xx" prompts oracle [5, 5, 9]).map
        QuestionResponse.QuestionID := by
  refine ⟨?_, extract_question_ids_nodup _,
    fun q => extract_question_ids_mem _ q, ?_, ?_, ?_⟩
  · simp [process_audit, process_multiple_questions]
  · simp [process_audit, process_multiple_questions, extract_question_ids]
  · have hmap : (process_audit "xx" prompts oracle [5, 5, 9]).map
        QuestionResponse.QuestionID = ["5", "9"] := by
      simp only [process_audit, process_multiple_questions, extract_question_ids]
      rfl
    rw [hmap]
    simp
  · have hmap : (process_audit "xx" prompts oracle [5, 5, 9]).map
        QuestionResponse.QuestionID = ["5", "9"] := by
      simp only [process_audit, process_multiple_questions, extract_question_ids]
      rfl
    rw [hmap]
    simp

/-- **C6 counterexample** — the claim "every response carries
`ComplianceLevel = 2` regardless of the LLM's output" is false: with a real
(non-sentinel) API key and an LLM output that explicitly carries
`ComplianceLevel = 3`, the normalization keeps 3 (it only back-fills a
*missing* key, `ai_service.py` lines 366–367). -/
theorem compliance_level_counterexample :
    (process_multiple_questions "sk-live" [] []
        (fun _ => .ok { complianceLevel := some 3, comments := none,
                        filesSearch := none, questionID := none }) ["5"]).map
      QuestionResponse.ComplianceLevel = [3]
    ∧ (3 : Int) ≠ 2 := by
  constructor
  · rfl
  · decide

/-- **C6 (amended)** — the simulation path, the per-question synthetic error
path and the orchestrator's failure responses always carry
`ComplianceLevel = 2`, and the LLM path back-fills 2 whenever the parsed
output lacks the key; an LLM output that explicitly supplies another value is
passed through unchanged (see the counterexample). -/
theorem compliance_level_two_on_code_paths (prompts : PromptMap)
    (docs : List AiDoc) (questionId msg : String) (parsed : ParsedLLM)
    (questionIds : List Int) :
    (simulateAuditResponse prompts docs questionId).ComplianceLevel = 2
    ∧ (questionErrorResponse questionId msg).ComplianceLevel = 2
    ∧ (parsed.complianceLevel = none →
        (normalizeLLMResponse parsed docs questionId).ComplianceLevel = 2)
    ∧ (∀ r ∈ process_audit_error_responses questionIds msg,
        r.ComplianceLevel = 2) := by
  refine ⟨rfl, rfl, ?_, ?_⟩
  · intro h
    simp [normalizeLLMResponse, h]
  · intro r hr
    simp only [process_audit_error_responses] at hr
    split at hr
    · rw [List.mem_singleton] at hr
      subst hr
      rfl
    · obtain ⟨qid, _, rfl⟩ := List.mem_map.mp hr
      rfl

/-- **C6 witness** — the back-fill and error paths at concrete inputs. -/
theorem compliance_level_two_on_code_paths_witness :
    (normalizeLLMResponse
      { complianceLevel := none, comments := none, filesSearch := none,
        questionID := none } [] "5").ComplianceLevel = 2
    ∧ ({ ComplianceLevel := 2,
         Comments := some "Error processing audit: boom. Unable to complete compliance assessment.",
         FilesSearch := [], QuestionID := "5" } : QuestionResponse).ComplianceLevel = 2 :=
  ⟨(compliance_level_two_on_code_paths [] [] "5" "boom"
      { complianceLevel := none, comments := none, filesSearch := none,
        questionID := none } [5]).2.2.1 rfl,
   (compliance_level_two_on_code_paths [] [] "5" "boom"
      { complianceLevel := none, comments := none, filesSearch := none,
        questionID := none } [5]).2.2.2
     { ComplianceLevel := 2,
       Comments := some "Error processing audit: boom. Unable to complete compliance assessment.",
       FilesSearch := [], QuestionID := "5" }
     (by decide)⟩

/-- **C7 counterexample** — the claim "the i-th response carries the i-th
question id" is false as stated: a successful LLM response that explicitly
carries a different `QuestionID` is passed through (`ai_service.py` lines
375–376 only back-fill a missing key), so querying question `"5"` can yield a
response carrying `"999"`. -/
theorem batch_question_id_counterexample :
    (process_multiple_questions "sk-live" [] []
        (fun _ => .ok { complianceLevel := none, comments := none,
                        filesSearch := none, questionID := some "999" }) ["5"]).map
      QuestionResponse.QuestionID = ["999"]
    ∧ "999" ≠ "5" := by
  constructor
  · rfl
  · decide

/-- **C7 (amended)** — `process_multiple_questions` never aborts the batch:
it returns exactly one response per input id, positionally (the i-th response
is the processing of the i-th id, other questions unaffected); an LLM-call
failure for one question is replaced by that question's deterministic
simulation, any other per-question exception by a synthetic error response
carrying that question's id; and the i-th response carries the i-th question
id whenever the LLM outcome does not explicitly supply a conflicting
`QuestionID` (simulation, back-fill and error paths always carry it). -/
theorem process_multiple_questions_batch_isolation (apiKey : String)
    (prompts : PromptMap) (docs : List AiDoc)
    (oracle : String → LLMOutcome) (questionIds : List String) :
    (process_multiple_questions apiKey prompts docs oracle questionIds).length
      = questionIds.length
    ∧ (∀ i : Nat,
        (process_multiple_questions apiKey prompts docs oracle questionIds)[i]? =
          (questionIds[i]?).map (processOneQuestion apiKey prompts docs oracle))
    ∧ (∀ qid msg, apiKey ≠ "xx" → oracle qid = .callFailed msg →
        processOneQuestion apiKey prompts docs oracle qid =
          simulateAuditResponse prompts docs qid)
    ∧ (∀ qid msg, apiKey ≠ "xx" → oracle qid = .otherError msg →
        processOneQuestion apiKey prompts docs oracle qid =
          questionErrorResponse qid msg)
    ∧ (∀ qid, (∀ parsed, oracle qid = .ok parsed →
          parsed.questionID = none ∨ parsed.questionID = some qid) →
        (processOneQuestion apiKey prompts docs oracle qid).QuestionID = qid) := by
  refine ⟨?_, ?_, ?_, ?_, ?_⟩
  · simp [process_multiple_questions]
  · intro i
    simp [process_multiple_questions]
  · intro qid msg hkey horacle
    simp [processOneQuestion, hkey, horacle]
  · intro qid msg hkey horacle
    simp [processOneQuestion, hkey, horacle]
  · intro qid hok
    by_cases hkey : apiKey = "xx"
    · simp [processOneQuestion, hkey, simulateAuditResponse]
    · cases horacle : oracle qid with
      | ok parsed =>
        rcases hok parsed horacle with h | h
        · simp [processOneQuestion, hkey, horacle, normalizeLLMResponse, h]
        · simp [processOneQuestion, hkey, horacle, normalizeLLMResponse, h]
      | jsonError => simp [processOneQuestion, hkey, horacle, simulateAuditResponse]
      | callFailed m => simp [processOneQuestion, hkey, horacle, simulateAuditResponse]
      | otherError m => simp [processOneQuestion, hkey, horacle, questionErrorResponse]

/-- **C7 witness** — an oracle that fails the LLM call for `"7"` and raises
an unexpected error for every other id: question `"7"` falls back to its
simulation, question `"5"` becomes a synthetic error response, and both carry
their own id. -/
theorem process_multiple_questions_batch_isolation_witness :
    processOneQuestion "sk-live" [] []
        (fun q => if q = "7" then LLMOutcome.callFailed "down"
                  else LLMOutcome.otherError "boom") "7" =
      simulateAuditResponse [] [] "7"
    ∧ processOneQuestion "sk-live" [] []
        (fun q => if q = "7" then LLMOutcome.callFailed "down"
                  else LLMOutcome.otherError "boom") "5" =
      questionErrorResponse "5" "boom"
    ∧ (processOneQuestion "sk-live" [] []
        (fun q => if q = "7" then LLMOutcome.callFailed "down"
                  else LLMOutcome.otherError "boom") "5").QuestionID = "5" :=
  ⟨(process_multiple_questions_batch_isolation "sk-live" [] []
      (fun q => if q = "7" then LLMOutcome.callFailed "down"
                else LLMOutcome.otherError "boom") []).2.2.1 "7" "down"
      (by decide) (by simp),
   (process_multiple_questions_batch_isolation "sk-live" [] []
      (fun q => if q = "7" then LLMOutcome.callFailed "down"
                else LLMOutcome.otherError "boom") []).2.2.2.1 "5" "boom"
      (by decide) (by simp),
   (process_multiple_questions_batch_isolation "sk-live" [] []
      (fun q => if q = "7" then LLMOutcome.callFailed "down"
                else LLMOutcome.otherError "boom") []).2.2.2.2 "5"
      (fun parsed h => by simp at h)⟩

/-! ### Auxiliary lemmas about the chunker -/

/-- Stripping never lengthens a string. -/
theorem pyStrip_length_le (s : List Char) : (pyStrip s).length ≤ s.length := by
  unfold pyStrip
  have h1 := (List.dropWhile_sublist (p := pyWS) (l := s)).length_le
  have h2 := (List.dropWhile_sublist (p := pyWS)
    (l := (s.dropWhile pyWS).reverse)).length_le
  simp only [List.length_reverse] at h2 ⊢
  omega

/-- Whitespace collapsing never lengthens a string. -/
theorem collapseWS_length_le (s : List Char) : (collapseWS s).length ≤ s.length := by
  induction s with
  | nil => simp [collapseWS]
  | cons c cs ih =>
    by_cases hc : pyWS c
    · cases cs with
      | nil => simp [collapseWS, hc]
      | cons d cs' =>
        by_cases hd : pyWS d
        · rw [show collapseWS (c :: d :: cs') = collapseWS (d :: cs') by
            simp [collapseWS, hc, hd]]
          simp only [List.length_cons] at *
          omega
        · rw [show collapseWS (c :: d :: cs') = ' ' :: collapseWS (d :: cs') by
            simp [collapseWS, hc, hd]]
          simp only [List.length_cons] at *
          omega
    · rw [show collapseWS (c :: cs) = c :: collapseWS cs by simp [collapseWS, hc]]
      simp only [List.length_cons]
      omega

/-- Normalization never lengthens a string. -/
theorem normalizeText_length_le (s : List Char) :
    (normalizeText s).length ≤ s.length :=
  le_trans (collapseWS_length_le _) (pyStrip_length_le s)

/-- `re.split` always returns at least one segment. -/
theorem splitTermRuns_ne_nil (s : List Char) : splitTermRuns s ≠ [] := by
  induction s with
  | nil => simp [splitTermRuns]
  | cons c cs ih =>
    by_cases hc : isTermChar c
    · cases cs with
      | nil => simp [splitTermRuns, hc]
      | cons d cs' =>
        by_cases hd : isTermChar d
        · simpa [splitTermRuns, hc, hd] using ih
        · simp [splitTermRuns, hc, hd]
    · cases hsp : splitTermRuns cs with
      | nil => exact absurd hsp ih
      | cons h0 t0 => simp [splitTermRuns, hc, hsp]

/-- The segments of `re.split` fit in the input: their total length plus one
separator character per boundary is at most the input length. -/
theorem splitTermRuns_sum_le (s : List Char) :
    ((splitTermRuns s).map List.length).sum + (splitTermRuns s).length ≤
      s.length + 1 := by
  induction s with
  | nil => simp [splitTermRuns]
  | cons c cs ih =>
    by_cases hc : isTermChar c
    · cases cs with
      | nil => simp [splitTermRuns, hc]
      | cons d cs' =>
        by_cases hd : isTermChar d
        · rw [show splitTermRuns (c :: d :: cs') = splitTermRuns (d :: cs') by
            simp [splitTermRuns, hc, hd]]
          simp only [List.length_cons] at *
          omega
        · rw [show splitTermRuns (c :: d :: cs') = [] :: splitTermRuns (d :: cs') by
            simp [splitTermRuns, hc, hd]]
          simp only [List.map_cons, List.sum_cons, List.length_cons,
            List.length_nil] at *
          omega
    · cases hsp : splitTermRuns cs with
      | nil => exact absurd hsp (splitTermRuns_ne_nil cs)
      | cons h0 t0 =>
        rw [show splitTermRuns (c :: cs) = (c :: h0) :: t0 by
          simp [splitTermRuns, hc, hsp]]
        rw [hsp] at ih
        simp only [List.map_cons, List.sum_cons, List.length_cons] at *
        omega

/-- With no sentence-terminal characters `re.split` returns the whole input
as its only segment. -/
theorem splitTermRuns_no_term (s : List Char)
    (h : ∀ c ∈ s, isTermChar c = false) : splitTermRuns s = [s] := by
  induction s with
  | nil => rfl
  | cons c cs ih =>
    have hc : isTermChar c = false := h c (List.mem_cons_self c cs)
    have hrest := ih fun x hx => h x (List.mem_cons_of_mem c hx)
    simp [splitTermRuns, hc, hrest]

/-- The head surviving a `dropWhile` fails the predicate. -/
theorem dropWhile_head?_not (p : Char → Bool) (l : List Char) (c : Char)
    (h : (l.dropWhile p).head? = some c) : p c = false := by
  induction l with
  | nil => cases h
  | cons a t ih =>
    rw [List.dropWhile_cons] at h
    by_cases hp : p a
    · rw [if_pos hp] at h
      exact ih h
    · rw [if_neg hp] at h
      have : a = c := by simpa using h
      subst this
      simpa using hp

/-- A nonempty `dropWhile` keeps the last element. -/
theorem getLast?_dropWhile (p : Char → Bool) (l : List Char)
    (h : l.dropWhile p ≠ []) : (l.dropWhile p).getLast? = l.getLast? := by
  induction l with
  | nil => simp at h
  | cons a t ih =>
    rw [List.dropWhile_cons]
    by_cases hp : p a
    · rw [List.dropWhile_cons, if_pos hp] at h
      rw [if_pos hp, ih h]
      have ht : t ≠ [] := by
        intro h0
        subst h0
        simp at h
      cases t with
      | nil => exact absurd rfl ht
      | cons b t' => rw [List.getLast?_cons_cons]
    · rw [if_neg hp]

/-- The first character of a stripped string is not whitespace. -/
theorem pyStrip_head?_not_ws (s : List Char) (c : Char)
    (h : (pyStrip s).head? = some c) : pyWS c = false := by
  unfold pyStrip at h
  rw [List.head?_reverse] at h
  have hne : List.dropWhile pyWS ((s.dropWhile pyWS).reverse) ≠ [] := by
    intro h0
    rw [h0] at h
    cases h
  rw [getLast?_dropWhile _ _ hne, List.getLast?_reverse] at h
  exact dropWhile_head?_not _ _ _ h

/-- The last character of a stripped string is not whitespace. -/
theorem pyStrip_getLast?_not_ws (s : List Char) (c : Char)
    (h : (pyStrip s).getLast? = some c) : pyWS c = false := by
  unfold pyStrip at h
  rw [List.getLast?_reverse] at h
  exact dropWhile_head?_not _ _ _ h

/-- A string with non-whitespace edges is a fixed point of stripping. -/
theorem pyStrip_eq_self_of_edges (t : List Char)
    (h1 : ∀ c, t.head? = some c → pyWS c = false)
    (h2 : ∀ c, t.getLast? = some c → pyWS c = false) :
    pyStrip t = t := by
  have hd1 : t.dropWhile pyWS = t := by
    cases t with
    | nil => rfl
    | cons a r =>
      rw [List.dropWhile_cons, if_neg]
      simp [h1 a rfl]
  have hd2 : t.reverse.dropWhile pyWS = t.reverse := by
    cases hrev : t.reverse with
    | nil => rfl
    | cons a r =>
      rw [List.dropWhile_cons, if_neg]
      have ha : t.getLast? = some a := by
        rw [← List.head?_reverse, hrev]
        rfl
      simp [h2 a ha]
  unfold pyStrip
  rw [hd1, hd2, List.reverse_reverse]

/-- Stripping is idempotent. -/
theorem pyStrip_idem (s : List Char) : pyStrip (pyStrip s) = pyStrip s :=
  pyStrip_eq_self_of_edges _ (pyStrip_head?_not_ws s) (pyStrip_getLast?_not_ws s)

/-- Collapsing whitespace keeps a nonempty string nonempty. -/
theorem collapseWS_ne_nil (s : List Char) (h : s ≠ []) : collapseWS s ≠ [] := by
  induction s with
  | nil => exact absurd rfl h
  | cons c cs ih =>
    by_cases hc : pyWS c
    · cases cs with
      | nil => simp [collapseWS, hc]
      | cons d cs' =>
        by_cases hd : pyWS d
        · rw [show collapseWS (c :: d :: cs') = collapseWS (d :: cs') by
            simp [collapseWS, hc, hd]]
          exact ih (by simp)
        · rw [show collapseWS (c :: d :: cs') = ' ' :: collapseWS (d :: cs') by
            simp [collapseWS, hc, hd]]
          simp
    · rw [show collapseWS (c :: cs) = c :: collapseWS cs by simp [collapseWS, hc]]
      simp

/-- If a string's last character is not whitespace, neither is the last
character of its whitespace-collapsed form. -/
theorem collapseWS_getLast?_not_ws (s : List Char)
    (hlast : ∀ c, s.getLast? = some c → pyWS c = false) :
    ∀ c, (collapseWS s).getLast? = some c → pyWS c = false := by
  induction s with
  | nil => intro c hc; cases hc
  | cons a t ih =>
    intro c hc
    by_cases ha : pyWS a
    · cases t with
      | nil => exact absurd (hlast a (by simp)) (by simpa using ha)
      | cons b t' =>
        have hstep : ∀ y, (b :: t').getLast? = some y → pyWS y = false :=
          fun y hy => hlast y (by rw [List.getLast?_cons_cons]; exact hy)
        by_cases hb : pyWS b
        · rw [show collapseWS (a :: b :: t') = collapseWS (b :: t') by
            simp [collapseWS, ha, hb]] at hc
          exact ih hstep c hc
        · rw [show collapseWS (a :: b :: t') = ' ' :: collapseWS (b :: t') by
            simp [collapseWS, ha, hb]] at hc
          have hne := collapseWS_ne_nil (b :: t') (by simp)
          cases hcol : collapseWS (b :: t') with
          | nil => exact absurd hcol hne
          | cons x xs =>
            rw [hcol, List.getLast?_cons_cons] at hc
            exact ih hstep c (by rw [hcol]; exact hc)
    · rw [show collapseWS (a :: t) = a :: collapseWS t by
        simp [collapseWS, ha]] at hc
      cases t with
      | nil =>
        have : a = c := by simpa [collapseWS] using hc
        subst this
        simpa using ha
      | cons b t' =>
        have hstep : ∀ y, (b :: t').getLast? = some y → pyWS y = false :=
          fun y hy => hlast y (by rw [List.getLast?_cons_cons]; exact hy)
        have hne := collapseWS_ne_nil (b :: t') (by simp)
        cases hcol : collapseWS (b :: t') with
        | nil => exact absurd hcol hne
        | cons x xs =>
          rw [hcol, List.getLast?_cons_cons] at hc
          exact ih hstep c (by rw [hcol]; exact hc)

/-- A normalized text is a fixed point of stripping. -/
theorem normalizeText_strip_fixed (s : List Char) :
    pyStrip (normalizeText s) = normalizeText s := by
  apply pyStrip_eq_self_of_edges
  · intro c hc
    unfold normalizeText at hc
    cases hst : pyStrip s with
    | nil =>
      rw [hst] at hc
      cases hc
    | cons a r =>
      have ha : pyWS a = false := pyStrip_head?_not_ws s a (by rw [hst]; rfl)
      rw [hst, show collapseWS (a :: r) = a :: collapseWS r by
        simp [collapseWS, ha]] at hc
      have : a = c := by simpa using hc
      subst this
      exact ha
  · intro c hc
    unfold normalizeText at hc
    exact collapseWS_getLast?_not_ws (pyStrip s)
      (fun x hx => pyStrip_getLast?_not_ws s x hx) c hc

/-- Joining a list whose first chunk is nonempty gives a nonempty string. -/
theorem joinSp_ne_nil (f : List Char) (R : List (List Char)) (hf : f ≠ []) :
    joinSp (f :: R) ≠ [] := by
  cases R with
  | nil => simpa [joinSp] using hf
  | cons g R' => simp [joinSp]

/-- The joined string starts with the first chunk. -/
theorem joinSp_head? (f : List Char) (R : List (List Char)) (hf : f ≠ []) :
    (joinSp (f :: R)).head? = f.head? := by
  cases R with
  | nil => simp [joinSp]
  | cons g R' =>
    cases f with
    | nil => exact absurd rfl hf
    | cons a f' => simp [joinSp]

/-- The joined string of stripped nonempty chunks ends in a non-whitespace
character. -/
theorem joinSp_getLast?_not_ws (F : List (List Char))
    (hF : ∀ f ∈ F, pyStrip f = f ∧ f ≠ []) :
    ∀ c, (joinSp F).getLast? = some c → pyWS c = false := by
  induction F with
  | nil => intro c hc; cases hc
  | cons f R ih =>
    intro c hc
    cases R with
    | nil =>
      have hf := hF f (List.mem_cons_self f [])
      rw [show joinSp [f] = f by simp [joinSp], ← hf.1] at hc
      exact pyStrip_getLast?_not_ws f c hc
    | cons g R' =>
      have hg := hF g (List.mem_cons_of_mem f (List.mem_cons_self g R'))
      have hne : joinSp (g :: R') ≠ [] := joinSp_ne_nil g R' hg.2
      rw [show joinSp (f :: g :: R') = f ++ ' ' :: joinSp (g :: R') by
        simp [joinSp]] at hc
      rw [List.getLast?_append_of_ne_nil _ (by simp)] at hc
      cases hJ : joinSp (g :: R') with
      | nil => exact absurd hJ hne
      | cons x xs =>
        rw [hJ, List.getLast?_cons_cons] at hc
        exact ih (fun y hy => hF y (List.mem_cons_of_mem f hy)) c
          (by rw [hJ]; exact hc)

/-- The joined string of stripped nonempty chunks is a fixed point of
stripping. -/
theorem joinSp_strip_fixed (F : List (List Char))
    (hF : ∀ f ∈ F, pyStrip f = f ∧ f ≠ []) (hne : F ≠ []) :
    pyStrip (joinSp F) = joinSp F := by
  apply pyStrip_eq_self_of_edges
  · intro c hc
    cases F with
    | nil => exact absurd rfl hne
    | cons f R =>
      have hf := hF f (List.mem_cons_self f R)
      rw [joinSp_head? f R hf.2, ← hf.1] at hc
      exact pyStrip_head?_not_ws f c hc
  · exact joinSp_getLast?_not_ws F hF

/-- Absorbing the next chunk into the running one commutes with joining. -/
theorem joinSp_merge (cur t : List Char) (R : List (List Char)) :
    joinSp ((cur ++ ' ' :: t) :: R) = joinSp (cur :: t :: R) := by
  cases R with
  | nil => simp [joinSp]
  | cons g R' => simp [joinSp]

/-- A skipped (empty-after-strip) sentence contributes no fragment. -/
theorem stripFrags_cons_empty (s : List Char) (rest : List (List Char))
    (h : (pyStrip s).isEmpty = true) :
    stripFrags (s :: rest) = stripFrags rest := by
  simp [stripFrags, h]

/-- A surviving sentence contributes its stripped form. -/
theorem stripFrags_cons_nonempty (s : List Char) (rest : List (List Char))
    (h : (pyStrip s).isEmpty = false) :
    stripFrags (s :: rest) = pyStrip s :: stripFrags rest := by
  simp [stripFrags, h]

/-- Every fragment is stripped and nonempty. -/
theorem mem_stripFrags (sents : List (List Char)) (f : List Char)
    (h : f ∈ stripFrags sents) : pyStrip f = f ∧ f ≠ [] := by
  unfold stripFrags at h
  obtain ⟨hmem, hq⟩ := List.mem_filter.mp h
  obtain ⟨s, _, rfl⟩ := List.mem_map.mp hmem
  refine ⟨pyStrip_idem s, ?_⟩
  intro h0
  rw [h0] at hq
  simp at hq

/-- Summing `length + 1` splits into total length plus count. -/
theorem sum_map_add_one (l : List (List Char)) :
    (l.map fun s => s.length + 1).sum = (l.map List.length).sum + l.length := by
  induction l with
  | nil => rfl
  | cons a t ih =>
    simp only [List.map_cons, List.sum_cons, List.length_cons, ih]
    omega

/-- The fragments of a text, with one separator each, fit in the text plus
one: the weight bound driving the no-overflow argument. -/
theorem fragsOf_weight_le (t : List Char) :
    ((fragsOf t).map fun s => s.length + 1).sum ≤ t.length + 1 := by
  have h1 : ((fragsOf t).map fun s => s.length + 1).sum ≤
      ((((splitTermRuns t).map pyStrip)).map fun s => s.length + 1).sum := by
    refine List.Sublist.sum_le_sum (List.Sublist.map _ (List.filter_sublist _)) ?_
    intro x hx
    positivity
  have h2 : ((((splitTermRuns t).map pyStrip)).map fun s => s.length + 1).sum =
      ((splitTermRuns t).map fun s => (pyStrip s).length + 1).sum := by
    rw [List.map_map]
    rfl
  have h3 : ((splitTermRuns t).map fun s => (pyStrip s).length + 1).sum ≤
      ((splitTermRuns t).map fun s => s.length + 1).sum := by
    apply List.sum_le_sum
    intro x hx
    have := pyStrip_length_le x
    omega
  have h4 := sum_map_add_one (splitTermRuns t)
  have h5 := splitTermRuns_sum_le t
  omega

/-- While appending the next fragment never overflows `max_chunk_size`, the
loop keeps extending the running chunk with single spaces and never flushes. -/
theorem accumulate_no_overflow (sents : List (List Char)) :
    ∀ (cur : List Char) (paras : List (List Char)), cur ≠ [] →
      cur.length + ((stripFrags sents).map fun s => s.length + 1).sum ≤
        maxChunkSize →
      accumulateSentences sents cur paras =
        (joinSp (cur :: stripFrags sents), paras) := by
  induction sents with
  | nil =>
    intro cur paras _ _
    simp [accumulateSentences, stripFrags, joinSp]
  | cons s rest ih =>
    intro cur paras hcur hb
    by_cases hemp : (pyStrip s).isEmpty
    · rw [stripFrags_cons_empty s rest hemp] at hb ⊢
      rw [show accumulateSentences (s :: rest) cur paras =
          accumulateSentences rest cur paras by
        simp [accumulateSentences, hemp]]
      exact ih cur paras hcur hb
    · have hempf : (pyStrip s).isEmpty = false := by simpa using hemp
      rw [stripFrags_cons_nonempty s rest hempf] at hb ⊢
      simp only [List.map_cons, List.sum_cons] at hb
      have hover : ¬ maxChunkSize < cur.length + (pyStrip s).length := by omega
      have hcurne : cur.isEmpty = false := by
        cases cur
        · exact absurd rfl hcur
        · rfl
      rw [show accumulateSentences (s :: rest) cur paras =
          accumulateSentences rest (cur ++ ' ' :: pyStrip s) paras by
        simp [accumulateSentences, hempf, hover, hcurne]]
      have hne2 : cur ++ ' ' :: pyStrip s ≠ [] := by simp
      have hb2 : (cur ++ ' ' :: pyStrip s).length +
          ((stripFrags rest).map fun s => s.length + 1).sum ≤ maxChunkSize := by
        simp only [List.length_append, List.length_cons]
        omega
      rw [ih (cur ++ ' ' :: pyStrip s) paras hne2 hb2, joinSp_merge]

/-- Starting from the empty chunk, when all fragments (with their separator
weight) fit in `max_chunk_size + 1`, the loop produces the single chunk
joining all fragments with spaces and flushes nothing. -/
theorem accumulate_from_empty (sents : List (List Char)) :
    ∀ paras : List (List Char),
      ((stripFrags sents).map fun s => s.length + 1).sum ≤ maxChunkSize + 1 →
      accumulateSentences sents [] paras = (joinSp (stripFrags sents), paras) := by
  induction sents with
  | nil =>
    intro paras _
    simp [accumulateSentences, stripFrags, joinSp]
  | cons s rest ih =>
    intro paras hb
    by_cases hemp : (pyStrip s).isEmpty
    · rw [stripFrags_cons_empty s rest hemp] at hb ⊢
      rw [show accumulateSentences (s :: rest) [] paras =
          accumulateSentences rest [] paras by
        simp [accumulateSentences, hemp]]
      exact ih paras hb
    · have hempf : (pyStrip s).isEmpty = false := by simpa using hemp
      rw [stripFrags_cons_nonempty s rest hempf] at hb ⊢
      simp only [List.map_cons, List.sum_cons] at hb
      have hover : ¬ maxChunkSize <
          List.length ([] : List Char) + (pyStrip s).length := by
        simp only [List.length_nil]
        omega
      rw [show accumulateSentences (s :: rest) [] paras =
          accumulateSentences rest (pyStrip s) paras by
        simp [accumulateSentences, hempf, hover]]
      have hne : pyStrip s ≠ [] := by
        intro h0
        rw [h0] at hempf
        cases hempf
      exact accumulate_no_overflow rest (pyStrip s) paras hne (by omega)

set_option maxRecDepth 40000 in
/-- **C3 counterexample** — the claim predicts that a 600-character
punctuation-free string falls back to 462-step fixed windows of length at
most 512; in fact the single sentence becomes the running chunk, the final
flush emits it whole, and the fallback (which only fires when *no* chunk was
produced) is never reached: the result is one 600-character chunk. -/
theorem split_no_punct_fallback_counterexample :
    split_into_paragraphs (List.replicate 600 'a') = [List.replicate 600 'a']
    ∧ split_into_paragraphs (List.replicate 600 'a') ≠
        [(List.replicate 600 'a').take maxChunkSize,
         ((List.replicate 600 'a').drop (maxChunkSize - overlapSize)).take
           maxChunkSize] := by
  constructor
  · decide
  · decide

/-- **C3 (amended)** — for every input whose whitespace-normalized form is
nonempty and has no sentence-terminal punctuation, `split_into_paragraphs`
returns exactly one chunk: the whole normalized text, regardless of its
length (the fixed-width 462-step fallback fires only when no nonempty
sentence fragment exists at all, e.g. for punctuation-only input). -/
theorem split_no_punct_single_whole_chunk (text : List Char)
    (hne : normalizeText text ≠ [])
    (hnp : ∀ c ∈ normalizeText text, isTermChar c = false) :
    split_into_paragraphs text = [normalizeText text] := by
  have hsp := splitTermRuns_no_term _ hnp
  have hfix := normalizeText_strip_fixed text
  have hempf : (normalizeText text).isEmpty = false := by
    cases h : normalizeText text with
    | nil => exact absurd h hne
    | cons a r => rfl
  have hacc : accumulateSentences [normalizeText text] [] [] =
      (normalizeText text, []) := by
    by_cases hover : maxChunkSize <
        List.length ([] : List Char) + (pyStrip (normalizeText text)).length
    · simp [accumulateSentences, hfix, hempf, hover]
    · simp [accumulateSentences, hfix, hempf, hover]
  simp only [split_into_paragraphs, hsp, hacc]
  simp [hempf, hfix]

set_option maxRecDepth 40000 in
/-- **C3 witness** — a 520-character punctuation-free string yields the
single whole chunk. -/
theorem split_no_punct_single_whole_chunk_witness :
    normalizeText (List.replicate 520 'b') ≠ []
    ∧ split_into_paragraphs (List.replicate 520 'b') =
        [normalizeText (List.replicate 520 'b')] :=
  ⟨by decide,
   split_no_punct_single_whole_chunk (List.replicate 520 'b') (by decide)
     (by decide)⟩

/-- **C4 counterexample** — the claim predicts the single returned element
equals the whitespace-normalized input; in fact `re.split` consumes the
sentence-terminal punctuation, so `"Hi. Bye."` yields `["Hi Bye"]`, not
`["Hi. Bye."]`. -/
theorem split_short_text_counterexample :
    split_into_paragraphs "Hi. Bye.".toList = ["Hi Bye".toList]
    ∧ split_into_paragraphs "Hi. Bye.".toList ≠
        [normalizeText "Hi. Bye.".toList] := by
  constructor
  · decide
  · decide

/-- **C4 (amended)** — for every input of at most 512 characters with at
least one nonempty sentence fragment, `split_into_paragraphs` returns
exactly one element: the stripped sentence fragments of the normalized input
(split on terminal-punctuation runs, which are consumed) joined by single
spaces. -/
theorem split_short_text_single_chunk (text : List Char)
    (hlen : text.length ≤ maxChunkSize)
    (hfr : fragsOf (normalizeText text) ≠ []) :
    split_into_paragraphs text = [joinSp (fragsOf (normalizeText text))] := by
  have hb : ((fragsOf (normalizeText text)).map fun s => s.length + 1).sum ≤
      maxChunkSize + 1 := by
    have h1 := fragsOf_weight_le (normalizeText text)
    have h2 := normalizeText_length_le text
    omega
  have hacc : accumulateSentences (splitTermRuns (normalizeText text)) [] [] =
      (joinSp (fragsOf (normalizeText text)), []) :=
    accumulate_from_empty (splitTermRuns (normalizeText text)) [] hb
  have hFprops : ∀ f ∈ fragsOf (normalizeText text), pyStrip f = f ∧ f ≠ [] :=
    fun f hf => mem_stripFrags _ f hf
  have hjoin_ne : joinSp (fragsOf (normalizeText text)) ≠ [] := by
    cases hF : fragsOf (normalizeText text) with
    | nil => exact absurd hF hfr
    | cons f R =>
      have hf := hFprops f (by rw [hF]; exact List.mem_cons_self f R)
      exact joinSp_ne_nil f R hf.2
  have hjoin_fix : pyStrip (joinSp (fragsOf (normalizeText text))) =
      joinSp (fragsOf (normalizeText text)) :=
    joinSp_strip_fixed _ hFprops hfr
  simp only [split_into_paragraphs, hacc]
  simp [hjoin_ne, hjoin_fix]

/-- **C4 witness** — `"Ok! Go on."` (10 characters, normal punctuation)
yields exactly the single space-joined fragment chunk. -/
theorem split_short_text_single_chunk_witness :
    "Ok! Go on.".toList.length ≤ maxChunkSize
    ∧ split_into_paragraphs "Ok! Go on.".toList =
        [joinSp (fragsOf (normalizeText "Ok! Go on.".toList))] :=
  ⟨by decide,
   split_short_text_single_chunk "Ok! Go on.".toList (by decide) (by decide)⟩
